import Mathlib

/-!
Shallow embedding of `src/orb_slam3_ros2_wrapper/src/rgbd/rgbd-slam-node.cpp`
(the RGB-D node of the ORB-SLAM3 ROS2 wrapper) and proofs about its
synchronization, locking and publication behaviour.

The estimation engine (`ORBSLAM3Interface`) is a black box: each engine call's
result is an oracle argument of the corresponding operation, and the call
itself is recorded as an event.  The message types keep only the fields the
node actually touches.
-/

namespace ORB_SLAM3_Wrapper

/-- ROS message timestamp (builtin_interfaces/Time). -/
structure TimeStamp where
  sec : Nat
  nanosec : Nat
deriving DecidableEq, Repr, Inhabited

/-- std_msgs/Header: frame id and stamp, the only fields the node touches. -/
structure Header where
  frame_id : String
  stamp : TimeStamp
deriving DecidableEq, Repr, Inhabited

/-- Rigid transform payload (geometry_msgs/Transform): translation and quaternion,
coordinates modelled as integers since the node never computes with them. -/
structure Transform where
  tx : Int
  ty : Int
  tz : Int
  qx : Int
  qy : Int
  qz : Int
  qw : Int
deriving DecidableEq, Repr, Inhabited

/-- geometry_msgs/TransformStamped, the type of `tfMapOdom_`. -/
structure TransformStamped where
  header : Header
  child_frame_id : String
  transform : Transform
deriving DecidableEq, Repr, Inhabited

/-- nav_msgs/Odometry: the node only reads `header.stamp`. -/
structure Odometry where
  header : Header
deriving DecidableEq, Repr, Inhabited

/-- sensor_msgs/Image: the node forwards it untouched. -/
structure Image where
  header : Header
deriving DecidableEq, Repr, Inhabited

/-- sensor_msgs/Imu: forwarded untouched to the engine. -/
structure Imu where
  header : Header
deriving DecidableEq, Repr, Inhabited

/-- sensor_msgs/PointCloud2: uninterpreted payload. -/
structure PointCloud2 where
  header : Header
  data : List Int
deriving DecidableEq, Repr, Inhabited

/-- nav_msgs/OccupancyGrid: the node touches `info.origin.position.x/y`,
`header.frame_id` and `header.stamp`. -/
structure OccupancyGrid where
  header : Header
  originX : Int
  originY : Int
  data : List Int
deriving DecidableEq, Repr, Inhabited

/-- grid_map_msgs/GridMap (`map.second`): published untouched by the node. -/
structure GridMapMsg where
  header : Header
  data : List Int
deriving DecidableEq, Repr, Inhabited

/-- slam_msgs/MapData: uninterpreted engine-produced payload. -/
structure MapData where
  raw : Nat
deriving DecidableEq, Repr, Inhabited

/-- slam_msgs/srv/GetMap request fields used by `getMapServer`. -/
structure GetMapRequest where
  tracked_points : Bool
  kf_id_for_landmarks : List Int
deriving DecidableEq, Repr, Inhabited

/-- slam_msgs/srv/GetMap response. -/
structure GetMapResponse where
  data : MapData
deriving DecidableEq, Repr, Inhabited

/-- Startup configuration of the node (declared parameters and flags), read in the
constructor (rgbd-slam-node.cpp lines 45-65) and immutable afterwards. -/
structure Config where
  rosViz : Bool
  robot_x : Int
  robot_y : Int
  global_frame : String
  odom_frame_id : String
  robot_base_frame_id : String
deriving DecidableEq, Repr, Inhabited

/-- Mutable state of `RgbdSlamNode`: the Tracking State Flag `isTracked_`, and the
Shared State Cell (`tfMapOdom_` plus `latestTime_`, guarded by `latestTimeMutex_`). -/
structure NodeState where
  isTracked : Bool
  tfMapOdom : TransformStamped
  latestTime : TimeStamp
deriving DecidableEq, Repr, Inhabited

/-- Modelled from the spec: the member initializers live in `rgbd-slam-node.hpp`,
which is not part of this translation unit; per the spec the Tracking State Flag
has initial value false, and the shared transform/timestamp start default-constructed. -/
def initState : NodeState :=
  { isTracked := false, tfMapOdom := default, latestTime := default }

/-- Observable actions of the node: messages published on its output channels and
calls made into the engine capability. -/
inductive Event
  | sendTransform (t : TransformStamped)
  | pubMapData (m : MapData)
  | pubMapPoints (pc : PointCloud2)
  | pubGrid (g : OccupancyGrid)
  | pubStructGrid (g : GridMapMsg)
  | engineHandleIMU
  | engineGetMapToOdomTF
  | engineTrackRGBD
  | engineGetCurrentMapPoints
  | engineGetTraversabilityData
  | engineMapDataToMsg (includeLandmarks : Bool) (trackedOnly : Bool) (kfIds : List Int)
  | engineHandleLidarPCL
deriving DecidableEq, Repr

/-- Modelled from the spec: `ORBSLAM3Interface::mapDataToMsg` is not part of this
translation unit; per the spec it is the engine capability
`queryMapSnapshot(includeLandmarks : bool, trackedOnly : bool, keyframeId : optional)`,
so a call site's positional boolean arguments are recorded in that order. -/
def mapDataToMsg (includeLandmarks : Bool) (trackedOnly : Bool) (kfIds : List Int) : Event :=
  Event.engineMapDataToMsg includeLandmarks trackedOnly kfIds

/-- Embeds `RgbdSlamNode::ImuCallback` (rgbd-slam-node.cpp lines 83-88): forwards the
sample to the engine; no node state touched. -/
def ImuCallback (s : NodeState) : NodeState × List Event :=
  (s, [Event.engineHandleIMU])

/-- Embeds `RgbdSlamNode::OdomCallback` (lines 90-96): under `latestTimeMutex_`, stores the
message stamp into `latestTime_` and then lets the engine write the map→odom
transform into `tfMapOdom_`; `engineTF` is the oracle result of that engine call. -/
def OdomCallback (s : NodeState) (msgOdom : Odometry) (engineTF : TransformStamped) :
    NodeState × List Event :=
  ({ s with latestTime := msgOdom.header.stamp, tfMapOdom := engineTF },
   [Event.engineGetMapToOdomTF])

/-- Embeds `RgbdSlamNode::publishMapPointCloud` (lines 133-138): obtains the current map
points from the engine; the publish statement is commented out in the source,
so no point-cloud message is emitted. -/
def publishMapPointCloud : List Event :=
  [Event.engineGetCurrentMapPoints]

/-- Embeds `RgbdSlamNode::RGBDCallback` (lines 98-110): runs the engine tracking call; on
success sets `isTracked_`, broadcasts the stored `tfMapOdom_` (not the computed
pose `Tcw`), and if `rosViz_` is set triggers the point-cloud republish path. -/
def RGBDCallback (cfg : Config) (s : NodeState) (msgRGB msgD : Image)
    (trackSuccess : Bool) (Tcw : Transform) : NodeState × List Event :=
  if trackSuccess then
    ({ s with isTracked := true },
     Event.engineTrackRGBD :: Event.sendTransform s.tfMapOdom ::
       (if cfg.rosViz then publishMapPointCloud else []))
  else
    (s, [Event.engineTrackRGBD])

/-- Embeds `RgbdSlamNode::LidarCallback` (lines 113-117): forwards the cloud to the engine. -/
def LidarCallback : List Event :=
  [Event.engineHandleLidarPCL]

/-- Embeds `RgbdSlamNode::publishTraversabilityData` (lines 119-130): with
`latestTimeMutex_` held for the whole body, queries the engine, offsets the
occupancy grid origin by `robot_x_`/`robot_y_`, overwrites the occupancy grid
header with the global frame and `latestTime_`, and publishes both grids; the
structured grid (`map.second`) is published exactly as the engine returned it. -/
def publishTraversabilityData (cfg : Config) (s : NodeState)
    (engineMap : OccupancyGrid × GridMapMsg) : List Event :=
  let g := engineMap.1
  let stamped : OccupancyGrid :=
    { g with
      originX := g.originX + cfg.robot_x,
      originY := g.originY + cfg.robot_y,
      header := { frame_id := cfg.global_frame, stamp := s.latestTime } }
  [Event.engineGetTraversabilityData, Event.pubGrid stamped,
   Event.pubStructGrid engineMap.2]

/-- Embeds `RgbdSlamNode::publishMapData` (lines 140-150): no-op unless `isTracked_`; when
tracked, requests a fresh snapshot via `mapDataToMsg(mapDataMsg, true, false)` and
publishes exactly that snapshot. -/
def publishMapData (s : NodeState) (engineSnapshot : MapData) : List Event :=
  if s.isTracked then
    [mapDataToMsg true false [], Event.pubMapData engineSnapshot]
  else []

/-- Embeds `RgbdSlamNode::getMapServer` (lines 152-160): requests a snapshot via
`mapDataToMsg(mapDataMsg, false, request->tracked_points, request->kf_id_for_landmarks)`
and returns it as the response; node state is neither read nor written. -/
def getMapServer (request : GetMapRequest) (engineSnapshot : MapData) :
    GetMapResponse × List Event :=
  ({ data := engineSnapshot },
   [mapDataToMsg false request.tracked_points request.kf_id_for_landmarks])

/-- One externally triggered invocation of the node, together with the oracle
results of the engine calls it performs. -/
inductive Op
  | imu (msg : Imu)
  | odom (msgOdom : Odometry) (engineTF : TransformStamped)
  | rgbd (msgRGB msgD : Image) (trackSuccess : Bool) (Tcw : Transform)
  | mapTick (engineSnapshot : MapData)
  | travTick (engineMap : OccupancyGrid × GridMapMsg)
  | getMap (request : GetMapRequest) (engineSnapshot : MapData)
  | lidar
deriving DecidableEq, Repr

/-- Dispatch one invocation against the node state. -/
def stepOp (cfg : Config) (s : NodeState) : Op → NodeState × List Event
  | Op.imu _ => ImuCallback s
  | Op.odom m tf => OdomCallback s m tf
  | Op.rgbd r d ok Tcw => RGBDCallback cfg s r d ok Tcw
  | Op.mapTick snap => (s, publishMapData s snap)
  | Op.travTick m => (s, publishTraversabilityData cfg s m)
  | Op.getMap req snap => (s, (getMapServer req snap).2)
  | Op.lidar => (s, LidarCallback)

/-- Run a sequence of invocations, accumulating the emitted events in order. -/
def run (cfg : Config) (s : NodeState) : List Op → NodeState × List Event
  | [] => (s, [])
  | op :: ops =>
      let r := stepOp cfg s op
      let rest := run cfg r.1 ops
      (rest.1, r.2 ++ rest.2)

/-- The transform last written by the odometry path, starting from `t0`. -/
def lastOdomTF (t0 : TransformStamped) : List Op → TransformStamped
  | [] => t0
  | Op.odom _ tf :: ops => lastOdomTF tf ops
  | Op.imu _ :: ops => lastOdomTF t0 ops
  | Op.rgbd _ _ _ _ :: ops => lastOdomTF t0 ops
  | Op.mapTick _ :: ops => lastOdomTF t0 ops
  | Op.travTick _ :: ops => lastOdomTF t0 ops
  | Op.getMap _ _ :: ops => lastOdomTF t0 ops
  | Op.lidar :: ops => lastOdomTF t0 ops

/-! ### Lock scope inside the method bodies

`std::lock_guard<std::mutex> lock(latestTimeMutex_)` is scoped to the whole
enclosing block.  The traces below list, in source order, the fine-grained
actions of the two methods that take the lock, so that "which action runs with
the lock held" is a statement about the trace. -/

/-- One fine-grained action inside a method body. -/
inductive Action
  | acq
  | rel
  | engineCall (name : String)
  | publish (chan : String)
  | writeTime
  | writeTf
  | readTime
deriving DecidableEq, Repr

/-- Action trace of `OdomCallback` (lines 90-96): the `lock_guard` on line 92 spans
the whole body, so the write of `latestTime_` and the engine call
`getMapToOdomTF` (which writes `tfMapOdom_`) both run under the lock. -/
def odomActions : List Action :=
  [Action.acq, Action.writeTime, Action.engineCall "getMapToOdomTF",
   Action.writeTf, Action.rel]

/-- Action trace of `publishTraversabilityData` (lines 119-130): the `lock_guard`
on line 121 spans the whole body, covering the engine query, the read of
`latestTime_` (line 127) and both publish calls. -/
def travActions : List Action :=
  [Action.acq, Action.engineCall "getTraversabilityData", Action.readTime,
   Action.publish "traversability_grid", Action.publish "RTQuadtree_struct",
   Action.rel]

/-- Net number of lock acquisitions in a prefix of a trace. -/
def lockDepth (as : List Action) : Nat :=
  as.foldl
    (fun d a =>
      match a with
      | Action.acq => d + 1
      | Action.rel => d - 1
      | _ => d) 0

/-- Whether the action at position `i` of the trace runs with the lock held. -/
def heldAt (as : List Action) (i : Nat) : Bool :=
  decide (0 < lockDepth (as.take i))

/-- Actions that are an engine-capability call or a publish call. -/
def isEngineOrPublish : Action → Bool
  | Action.engineCall _ => true
  | Action.publish _ => true
  | _ => false

/-- The discipline demanded by the spec: no engine call and no publish call of the
method runs while the lock is held. -/
def noLockAcrossEngineOrPublish (as : List Action) : Bool :=
  as.enum.all fun p => !(isEngineOrPublish p.2 && heldAt as p.1)

/-- The discipline the source actually implements: every engine call and publish
call of the method runs while the lock is held. -/
def allEngineAndPublishUnderLock (as : List Action) : Bool :=
  as.enum.all fun p => !(isEngineOrPublish p.2) || heldAt as p.1

/-! ### Interleaving model of the Shared State Cell

Field-granularity two-thread model of `latestTime_`/`tfMapOdom_` under
`latestTimeMutex_`.  The writer thread is the odometry callback critical
section (lines 92-95, timestamp first, transform second); the reader thread is
a periodic-publisher critical section that snapshots the cell under the lock
(the traversability publisher holds the lock while reading `latestTime_`; the
model reader also reads the transform, which only strengthens the property).
Writes are numbered, and each field stores the number of the write that
produced it, so a snapshot is torn exactly when its two numbers differ. -/

structure CellState where
  lockW : Bool
  lockR : Bool
  wpc : Nat
  rpc : Nat
  wn : Nat
  time : Nat
  tf : Nat
  rTime : Nat
  rTf : Nat
  obs : List (Nat × Nat)
deriving DecidableEq, Repr

/-- One interleaved step of the writer or the reader.  Acquisition requires the
mutex to be free; the program counters follow the source order of the two
critical sections. -/
inductive CellStep : CellState → CellState → Prop
  | wAcq (s : CellState) : s.lockW = false → s.lockR = false → s.wpc = 0 →
      CellStep s { s with lockW := true, wpc := 1 }
  | wTime (s : CellState) : s.wpc = 1 →
      CellStep s { s with time := s.wn, wpc := 2 }
  | wTf (s : CellState) : s.wpc = 2 →
      CellStep s { s with tf := s.wn, wpc := 3 }
  | wRel (s : CellState) : s.wpc = 3 →
      CellStep s { s with lockW := false, wpc := 0, wn := s.wn + 1 }
  | rAcq (s : CellState) : s.lockW = false → s.lockR = false → s.rpc = 0 →
      CellStep s { s with lockR := true, rpc := 1 }
  | rTime (s : CellState) : s.rpc = 1 →
      CellStep s { s with rTime := s.time, rpc := 2 }
  | rTf (s : CellState) : s.rpc = 2 →
      CellStep s { s with rTf := s.tf, rpc := 3 }
  | rRel (s : CellState) : s.rpc = 3 →
      CellStep s { s with lockR := false, rpc := 0, obs := (s.rTf, s.rTime) :: s.obs }

/-- Initial cell: both fields hold write number 0 (the initial write), the first
odometry write will be number 1, nobody holds the mutex. -/
def initCell : CellState :=
  { lockW := false, lockR := false, wpc := 0, rpc := 0, wn := 1,
    time := 0, tf := 0, rTime := 0, rTf := 0, obs := [] }

/-- States reachable by interleaving the two critical sections. -/
def CellReachable : CellState → Prop :=
  Relation.ReflTransGen CellStep initCell

/-- Inductive invariant of the cell: lock/pc agreement, mutual exclusion, the two
fields agree whenever the writer is outside its critical section, and every
completed snapshot is consistent. -/
def CellInv (s : CellState) : Prop :=
  (s.lockW = true ↔ s.wpc ≠ 0) ∧
  (s.lockR = true ↔ s.rpc ≠ 0) ∧
  ¬(s.lockW = true ∧ s.lockR = true) ∧
  (s.wpc = 0 → s.time = s.tf) ∧
  (s.wpc = 2 → s.time = s.wn) ∧
  (s.wpc = 3 → s.time = s.wn ∧ s.tf = s.wn) ∧
  (s.rpc = 2 → s.rTime = s.time) ∧
  (s.rpc = 3 → s.rTime = s.time ∧ s.rTf = s.tf) ∧
  (∀ p ∈ s.obs, p.1 = p.2)

lemma cellInv_init : CellInv initCell := by
  refine ⟨by simp [initCell], by simp [initCell], by simp [initCell], ?_, ?_, ?_, ?_, ?_, ?_⟩ <;>
    simp [initCell]

lemma cellInv_step {s s' : CellState} (hInv : CellInv s) (hStep : CellStep s s') :
    CellInv s' := by
  obtain ⟨hLW, hLR, hMX, h0, h2, h3, hr2, hr3, hobs⟩ := hInv
  cases hStep with
  | wAcq hw hr hpc =>
      have hrpc : s.rpc = 0 := by
        by_contra hne
        exact absurd (hLR.mpr hne) (by simp [hr])
      refine ⟨?_, ?_, ?_, ?_, ?_, ?_, ?_, ?_, hobs⟩ <;> simp_all
  | wTime hpc =>
      have hw : s.lockW = true := hLW.mpr (by omega)
      have hrpc : s.rpc = 0 := by
        by_contra hne
        exact hMX ⟨hw, hLR.mpr hne⟩
      have hr : s.lockR = false := by
        rcases Bool.eq_false_or_eq_true s.lockR with h | h
        · exact absurd (hLR.mp h) (by simp [hrpc])
        · exact h
      refine ⟨?_, ?_, ?_, ?_, ?_, ?_, ?_, ?_, hobs⟩ <;> simp_all
  | wTf hpc =>
      have hw : s.lockW = true := hLW.mpr (by omega)
      have hrpc : s.rpc = 0 := by
        by_contra hne
        exact hMX ⟨hw, hLR.mpr hne⟩
      have hr : s.lockR = false := by
        rcases Bool.eq_false_or_eq_true s.lockR with h | h
        · exact absurd (hLR.mp h) (by simp [hrpc])
        · exact h
      have htw : s.time = s.wn := h2 hpc
      refine ⟨?_, ?_, ?_, ?_, ?_, ?_, ?_, ?_, hobs⟩ <;> simp_all
  | wRel hpc =>
      have hw : s.lockW = true := hLW.mpr (by omega)
      have hrpc : s.rpc = 0 := by
        by_contra hne
        exact hMX ⟨hw, hLR.mpr hne⟩
      have hr : s.lockR = false := by
        rcases Bool.eq_false_or_eq_true s.lockR with h | h
        · exact absurd (hLR.mp h) (by simp [hrpc])
        · exact h
      obtain ⟨ha, hb⟩ := h3 hpc
      refine ⟨?_, ?_, ?_, ?_, ?_, ?_, ?_, ?_, hobs⟩ <;> simp_all
  | rAcq hw hr hpc =>
      have hwpc : s.wpc = 0 := by
        by_contra hne
        exact absurd (hLW.mpr hne) (by simp [hw])
      have htt : s.time = s.tf := h0 hwpc
      refine ⟨?_, ?_, ?_, ?_, ?_, ?_, ?_, ?_, hobs⟩ <;> simp_all
  | rTime hpc =>
      have hrl : s.lockR = true := hLR.mpr (by omega)
      have hwpc : s.wpc = 0 := by
        by_contra hne
        exact hMX ⟨hLW.mpr hne, hrl⟩
      have hw : s.lockW = false := by
        rcases Bool.eq_false_or_eq_true s.lockW with h | h
        · exact absurd (hLW.mp h) (by simp [hwpc])
        · exact h
      refine ⟨?_, ?_, ?_, ?_, ?_, ?_, ?_, ?_, hobs⟩ <;> simp_all
  | rTf hpc =>
      have hrl : s.lockR = true := hLR.mpr (by omega)
      have hwpc : s.wpc = 0 := by
        by_contra hne
        exact hMX ⟨hLW.mpr hne, hrl⟩
      have hw : s.lockW = false := by
        rcases Bool.eq_false_or_eq_true s.lockW with h | h
        · exact absurd (hLW.mp h) (by simp [hwpc])
        · exact h
      have hrt : s.rTime = s.time := hr2 hpc
      refine ⟨?_, ?_, ?_, ?_, ?_, ?_, ?_, ?_, hobs⟩ <;> simp_all
  | rRel hpc =>
      have hrl : s.lockR = true := hLR.mpr (by omega)
      have hwpc : s.wpc = 0 := by
        by_contra hne
        exact hMX ⟨hLW.mpr hne, hrl⟩
      have hw : s.lockW = false := by
        rcases Bool.eq_false_or_eq_true s.lockW with h | h
        · exact absurd (hLW.mp h) (by simp [hwpc])
        · exact h
      have htt : s.time = s.tf := h0 hwpc
      obtain ⟨ha, hb⟩ := hr3 hpc
      refine ⟨?_, ?_, ?_, ?_, ?_, ?_, ?_, ?_, ?_⟩
      · simp_all
      · simp
      · simp [hw]
      · simpa using h0
      · simpa using h2
      · simpa using h3
      · simp
      · simp
      · intro p hp
        simp only [List.mem_cons] at hp
        rcases hp with hp | hp
        · subst hp
          simp only [ha, hb, htt]
        · exact hobs p hp

lemma cellInv_reachable {s : CellState} (h : CellReachable s) : CellInv s := by
  induction h with
  | refl => exact cellInv_init
  | tail _ hstep ih => exact cellInv_step ih hstep

/-! ### Concrete fixtures used by witnesses and counterexamples -/

/-- Concrete configuration: visualization on, robot origin offsets 2 and 3. -/
def cfg0 : Config :=
  { rosViz := true, robot_x := 2, robot_y := 3, global_frame := "map",
    odom_frame_id := "odom", robot_base_frame_id := "base_link" }

/-- Concrete image message. -/
def img0 : Image := { header := { frame_id := "camera", stamp := ⟨3, 0⟩ } }

/-- Concrete engine-computed map→odom transform. -/
def tf1 : TransformStamped :=
  { header := { frame_id := "map", stamp := ⟨5, 0⟩ }, child_frame_id := "odom",
    transform := { tx := 7, ty := 0, tz := 0, qx := 0, qy := 0, qz := 0, qw := 1 } }

/-- Concrete odometry message. -/
def odom1 : Odometry := { header := { frame_id := "odom", stamp := ⟨5, 1⟩ } }

/-- Concrete map snapshot payload. -/
def snap0 : MapData := { raw := 42 }

/-- Concrete traversability pair returned by the engine: the structured grid
carries its own engine-side header. -/
def travMap0 : OccupancyGrid × GridMapMsg :=
  ({ header := { frame_id := "grid", stamp := ⟨9, 9⟩ }, originX := 10, originY := 20,
     data := [0, 1] },
   { header := { frame_id := "grid", stamp := ⟨9, 9⟩ }, data := [2, 3] })

/-- Concrete service request. -/
def req0 : GetMapRequest := { tracked_points := false, kf_id_for_landmarks := [7] }

/-- Node state after one odometry update and one successful track. -/
def trackedState : NodeState :=
  { isTracked := true, tfMapOdom := tf1, latestTime := ⟨5, 1⟩ }

/-! Intermediate states of one full write followed by one full read of the cell. -/

def cellA : CellState :=
  { lockW := true, lockR := false, wpc := 1, rpc := 0, wn := 1,
    time := 0, tf := 0, rTime := 0, rTf := 0, obs := [] }

def cellB : CellState :=
  { lockW := true, lockR := false, wpc := 2, rpc := 0, wn := 1,
    time := 1, tf := 0, rTime := 0, rTf := 0, obs := [] }

def cellC : CellState :=
  { lockW := true, lockR := false, wpc := 3, rpc := 0, wn := 1,
    time := 1, tf := 1, rTime := 0, rTf := 0, obs := [] }

def cellD : CellState :=
  { lockW := false, lockR := false, wpc := 0, rpc := 0, wn := 2,
    time := 1, tf := 1, rTime := 0, rTf := 0, obs := [] }

def cellE : CellState :=
  { lockW := false, lockR := true, wpc := 0, rpc := 1, wn := 2,
    time := 1, tf := 1, rTime := 0, rTf := 0, obs := [] }

def cellF : CellState :=
  { lockW := false, lockR := true, wpc := 0, rpc := 2, wn := 2,
    time := 1, tf := 1, rTime := 1, rTf := 0, obs := [] }

def cellG : CellState :=
  { lockW := false, lockR := true, wpc := 0, rpc := 3, wn := 2,
    time := 1, tf := 1, rTime := 1, rTf := 1, obs := [] }

/-- Final demo state: one complete write (number 1) observed by one complete read. -/
def demoCell : CellState :=
  { lockW := false, lockR := false, wpc := 0, rpc := 0, wn := 2,
    time := 1, tf := 1, rTime := 1, rTf := 1, obs := [(1, 1)] }

lemma demoCell_reachable : CellReachable demoCell := by
  have t0 : Relation.ReflTransGen CellStep initCell initCell := Relation.ReflTransGen.refl
  have t1 : Relation.ReflTransGen CellStep initCell cellA :=
    t0.tail (CellStep.wAcq initCell rfl rfl rfl)
  have t2 : Relation.ReflTransGen CellStep initCell cellB :=
    t1.tail (CellStep.wTime cellA rfl)
  have t3 : Relation.ReflTransGen CellStep initCell cellC :=
    t2.tail (CellStep.wTf cellB rfl)
  have t4 : Relation.ReflTransGen CellStep initCell cellD :=
    t3.tail (CellStep.wRel cellC rfl)
  have t5 : Relation.ReflTransGen CellStep initCell cellE :=
    t4.tail (CellStep.rAcq cellD rfl rfl rfl)
  have t6 : Relation.ReflTransGen CellStep initCell cellF :=
    t5.tail (CellStep.rTime cellE rfl)
  have t7 : Relation.ReflTransGen CellStep initCell cellG :=
    t6.tail (CellStep.rTf cellF rfl)
  exact t7.tail (CellStep.rRel cellG rfl)

/-- C1: for every interleaving of the odometry-callback writer and a
periodic-publisher reader of the Shared State Cell, every completed reader
snapshot pairs a transform and a timestamp produced by the same write — no
observation mixes fields of two different writes. -/
theorem sharedCell_no_torn_reads (s : CellState) (h : CellReachable s) :
    ∀ p ∈ s.obs, p.1 = p.2 :=
  (cellInv_reachable h).2.2.2.2.2.2.2.2

/-- Witness for C1: the interleaving that performs write number 1 and then one
full read is reachable, and the theorem yields consistency of its observation. -/
theorem sharedCell_no_torn_reads_witness :
    CellReachable demoCell ∧ ((1, 1) : Nat × Nat).1 = ((1, 1) : Nat × Nat).2 :=
  ⟨demoCell_reachable,
   sharedCell_no_torn_reads demoCell demoCell_reachable (1, 1) (by simp [demoCell])⟩

/-- C2 counterexample: the lock discipline claimed by the spec is violated by the
source: in `publishTraversabilityData` and in `OdomCallback` the engine calls and
the publish calls run with `latestTimeMutex_` held. -/
theorem lock_held_across_engine_and_publish :
    noLockAcrossEngineOrPublish travActions = false ∧
    noLockAcrossEngineOrPublish odomActions = false := by decide

/-- C2 amended: the `lock_guard` spans each whole method body, so on every
traversability tick the lock is held across the engine query and both publish
calls (not only for the timestamp read), and the odometry callback holds it
across the engine transform computation; each trace is lock-balanced. -/
theorem lock_spans_method_bodies :
    allEngineAndPublishUnderLock travActions = true ∧
    allEngineAndPublishUnderLock odomActions = true ∧
    heldAt travActions 2 = true ∧
    lockDepth travActions = 0 ∧ lockDepth odomActions = 0 := by decide

/-! ### Event classifiers and run-level lemmas -/

/-- Events that publish a message or broadcast a transform. -/
def isOutput : Event → Bool
  | Event.sendTransform _ => true
  | Event.pubMapData _ => true
  | Event.pubMapPoints _ => true
  | Event.pubGrid _ => true
  | Event.pubStructGrid _ => true
  | _ => false

/-- Map-data channel messages. -/
def isPubMapData : Event → Bool
  | Event.pubMapData _ => true
  | _ => false

/-- Point-cloud channel messages. -/
def isPubMapPoints : Event → Bool
  | Event.pubMapPoints _ => true
  | _ => false

/-- Arguments of an engine snapshot query, in the spec's order
(includeLandmarks, trackedOnly, keyframe ids). -/
def queryArgs : Event → Option (Bool × Bool × List Int)
  | Event.engineMapDataToMsg l t k => some (l, t, k)
  | _ => none

/-- Payload of an occupancy-grid publication. -/
def gridPayload : Event → Option OccupancyGrid
  | Event.pubGrid g => some g
  | _ => none

/-- Payload of a structured grid-map publication. -/
def structPayload : Event → Option GridMapMsg
  | Event.pubStructGrid g => some g
  | _ => none

lemma run_append (cfg : Config) (s : NodeState) (ops ops' : List Op) :
    run cfg s (ops ++ ops') =
      ((run cfg (run cfg s ops).1 ops').1,
       (run cfg s ops).2 ++ (run cfg (run cfg s ops).1 ops').2) := by
  induction ops generalizing s with
  | nil => simp [run]
  | cons op ops ih => simp [run, ih]

lemma stepOp_isTracked_mono (cfg : Config) (s : NodeState) (op : Op)
    (h : s.isTracked = true) : (stepOp cfg s op).1.isTracked = true := by
  cases op with
  | rgbd r d ok Tcw => cases ok <;> simp [stepOp, RGBDCallback, h]
  | _ => simp [stepOp, ImuCallback, OdomCallback, h]

lemma stepOp_isTracked_change (cfg : Config) (s : NodeState) (op : Op)
    (h : (stepOp cfg s op).1.isTracked ≠ s.isTracked) :
    ∃ r d Tcw, op = Op.rgbd r d true Tcw := by
  cases op with
  | rgbd r d ok Tcw =>
      cases ok
      · exact absurd (by simp [stepOp, RGBDCallback]) h
      · exact ⟨r, d, Tcw, rfl⟩
  | _ => exact absurd (by simp [stepOp, ImuCallback, OdomCallback]) h

lemma run_isTracked_mono (cfg : Config) (ops : List Op) :
    ∀ s : NodeState, s.isTracked = true → (run cfg s ops).1.isTracked = true := by
  induction ops with
  | nil => intro s h; simpa [run] using h
  | cons op ops ih =>
      intro s h
      simpa [run] using ih _ (stepOp_isTracked_mono cfg s op h)

lemma run_tfMapOdom (cfg : Config) (ops : List Op) :
    ∀ s : NodeState, (run cfg s ops).1.tfMapOdom = lastOdomTF s.tfMapOdom ops := by
  induction ops with
  | nil => intro s; simp [run, lastOdomTF]
  | cons op ops ih =>
      intro s
      cases op with
      | rgbd r d ok Tcw =>
          cases ok <;> simp [run, stepOp, RGBDCallback, lastOdomTF, ih]
      | _ => simp [run, stepOp, ImuCallback, OdomCallback, lastOdomTF, ih]

lemma step_sendTransform (cfg : Config) (s : NodeState) (op : Op)
    (t : TransformStamped) (h : Event.sendTransform t ∈ (stepOp cfg s op).2) :
    t = s.tfMapOdom := by
  cases op with
  | rgbd r d ok Tcw =>
      cases ok <;> cases hv : cfg.rosViz <;>
        simp_all [stepOp, RGBDCallback, publishMapPointCloud]
  | mapTick snap =>
      cases ht : s.isTracked <;>
        simp_all [stepOp, publishMapData, mapDataToMsg]
  | _ =>
      simp_all [stepOp, ImuCallback, OdomCallback, LidarCallback,
        publishTraversabilityData, getMapServer, mapDataToMsg]

lemma step_no_pubMapPoints (cfg : Config) (s : NodeState) (op : Op) :
    (stepOp cfg s op).2.filter isPubMapPoints = [] := by
  cases op with
  | rgbd r d ok Tcw =>
      cases ok <;> cases hv : cfg.rosViz <;>
        simp [stepOp, RGBDCallback, publishMapPointCloud, hv, isPubMapPoints,
          List.filter]
  | mapTick snap =>
      cases ht : s.isTracked <;>
        simp [stepOp, publishMapData, mapDataToMsg, ht, isPubMapPoints, List.filter]
  | _ =>
      simp [stepOp, ImuCallback, OdomCallback, LidarCallback,
        publishTraversabilityData, getMapServer, mapDataToMsg, isPubMapPoints,
        List.filter]

lemma run_no_pubMapPoints (cfg : Config) (ops : List Op) :
    ∀ s : NodeState, (run cfg s ops).2.filter isPubMapPoints = [] := by
  induction ops with
  | nil => intro s; simp [run]
  | cons op ops ih =>
      intro s
      simp [run, List.filter_append, step_no_pubMapPoints, ih]

/-- Concrete successful-track invocation. -/
def opTrackOk : Op := Op.rgbd img0 img0 true default

/-- C3: the Tracking State Flag starts false, only a successful RGB-D track ever
changes it (idempotently to true), and for every sequence of invocations it
stays true once set. -/
theorem trackingFlag_write_once_monotone :
    initState.isTracked = false ∧
    (∀ cfg s op, s.isTracked = true → (stepOp cfg s op).1.isTracked = true) ∧
    (∀ cfg s op, (stepOp cfg s op).1.isTracked ≠ s.isTracked →
       ∃ r d Tcw, op = Op.rgbd r d true Tcw) ∧
    (∀ cfg ops ops', (run cfg initState ops).1.isTracked = true →
       (run cfg initState (ops ++ ops')).1.isTracked = true) :=
  ⟨rfl,
   fun cfg s op h => stepOp_isTracked_mono cfg s op h,
   fun cfg s op h => stepOp_isTracked_change cfg s op h,
   fun cfg ops ops' h => by
     rw [run_append]
     exact run_isTracked_mono cfg ops' _ h⟩

/-- Witness for C3: after one successful track the flag is true and remains true
across further lidar and map-tick invocations. -/
theorem trackingFlag_write_once_monotone_witness :
    (run cfg0 initState [opTrackOk]).1.isTracked = true ∧
    (run cfg0 initState ([opTrackOk] ++ [Op.lidar, Op.mapTick snap0])).1.isTracked = true :=
  ⟨rfl,
   trackingFlag_write_once_monotone.2.2.2 cfg0 [opTrackOk] [Op.lidar, Op.mapTick snap0] rfl⟩

/-- C4: a map-data timer tick while the flag is false publishes nothing; once the
flag is true each tick requests a snapshot from the engine and publishes exactly
one map-data message, namely that tick's fresh snapshot, without touching state. -/
theorem mapData_tick_gated_and_fresh :
    (∀ cfg s snap, s.isTracked = false → (stepOp cfg s (Op.mapTick snap)).2 = []) ∧
    (∀ cfg s snap, s.isTracked = true →
       (stepOp cfg s (Op.mapTick snap)).2.filter isPubMapData = [Event.pubMapData snap] ∧
       mapDataToMsg true false [] ∈ (stepOp cfg s (Op.mapTick snap)).2 ∧
       (stepOp cfg s (Op.mapTick snap)).1 = s) := by
  constructor
  · intro cfg s snap h
    simp [stepOp, publishMapData, h]
  · intro cfg s snap h
    refine ⟨?_, ?_, rfl⟩ <;>
      simp [stepOp, publishMapData, mapDataToMsg, h, isPubMapData, List.filter]

/-- Witness for C4: in the initial state a tick publishes nothing; after a
successful track a tick publishes exactly the fresh snapshot. -/
theorem mapData_tick_gated_and_fresh_witness :
    initState.isTracked = false ∧
    (stepOp cfg0 initState (Op.mapTick snap0)).2 = [] ∧
    trackedState.isTracked = true ∧
    (stepOp cfg0 trackedState (Op.mapTick snap0)).2.filter isPubMapData =
      [Event.pubMapData snap0] :=
  ⟨rfl, mapData_tick_gated_and_fresh.1 cfg0 initState snap0 rfl, rfl,
   (mapData_tick_gated_and_fresh.2 cfg0 trackedState snap0 rfl).1⟩

/-- C5: an RGB-D invocation whose tracking call fails leaves the node state
(including the Tracking State Flag) unchanged and emits no broadcast and no
publication on any channel. -/
theorem rgbd_failure_no_side_effects (cfg : Config) (s : NodeState)
    (msgRGB msgD : Image) (Tcw : Transform) :
    (stepOp cfg s (Op.rgbd msgRGB msgD false Tcw)).1 = s ∧
    (stepOp cfg s (Op.rgbd msgRGB msgD false Tcw)).2.filter isOutput = [] ∧
    (stepOp cfg s (Op.rgbd msgRGB msgD false Tcw)).1.isTracked = s.isTracked := by
  refine ⟨rfl, ?_, rfl⟩
  simp [stepOp, RGBDCallback, isOutput, List.filter]

/-- C7: the cell's transform always equals the last odometry-path write, every
transform broadcast carries exactly the cell's current transform, and the
broadcast is independent of the pose the tracking call just computed. -/
theorem broadcast_from_odometry_path :
    (∀ cfg ops, (run cfg initState ops).1.tfMapOdom = lastOdomTF initState.tfMapOdom ops) ∧
    (∀ cfg s op t, Event.sendTransform t ∈ (stepOp cfg s op).2 → t = s.tfMapOdom) ∧
    (∀ cfg s msgRGB msgD Tcw Tcw2,
       (RGBDCallback cfg s msgRGB msgD true Tcw).2 =
         (RGBDCallback cfg s msgRGB msgD true Tcw2).2) :=
  ⟨fun cfg ops => run_tfMapOdom cfg ops initState,
   fun cfg s op t h => step_sendTransform cfg s op t h,
   fun _ _ _ _ _ _ => rfl⟩

/-- Witness for C7: the transform broadcast by a successful track from
`trackedState` is the odometry-written `tf1`, not anything derived from the pose. -/
theorem broadcast_from_odometry_path_witness :
    Event.sendTransform tf1 ∈ (stepOp cfg0 trackedState opTrackOk).2 ∧
    tf1 = trackedState.tfMapOdom :=
  ⟨by decide,
   broadcast_from_odometry_path.2.1 cfg0 trackedState opTrackOk tf1 (by decide)⟩

/-- C8 counterexample: with visualization enabled and a successful track the node
fetches the current map point cloud from the engine, yet emits no message at all
on the point-cloud output channel — the publish statement is commented out. -/
theorem rgbd_success_no_pointcloud_message :
    cfg0.rosViz = true ∧
    Event.engineGetCurrentMapPoints ∈ (stepOp cfg0 trackedState opTrackOk).2 ∧
    (stepOp cfg0 trackedState opTrackOk).2.filter isPubMapPoints = [] := by decide

/-- C8 amended: no run of the node ever publishes on the point-cloud channel; on a
successful track the point cloud is fetched from the engine exactly when
visualization is enabled, and never on failure. -/
theorem pointcloud_fetched_never_published :
    (∀ cfg ops, (run cfg initState ops).2.filter isPubMapPoints = []) ∧
    (∀ cfg (s : NodeState) msgRGB msgD Tcw, cfg.rosViz = true →
       Event.engineGetCurrentMapPoints ∈ (stepOp cfg s (Op.rgbd msgRGB msgD true Tcw)).2) ∧
    (∀ cfg (s : NodeState) msgRGB msgD Tcw, cfg.rosViz = false →
       Event.engineGetCurrentMapPoints ∉ (stepOp cfg s (Op.rgbd msgRGB msgD true Tcw)).2) ∧
    (∀ cfg (s : NodeState) msgRGB msgD Tcw,
       Event.engineGetCurrentMapPoints ∉ (stepOp cfg s (Op.rgbd msgRGB msgD false Tcw)).2) := by
  refine ⟨fun cfg ops => run_no_pubMapPoints cfg ops initState, ?_, ?_, ?_⟩
  · intro cfg s msgRGB msgD Tcw h
    simp [stepOp, RGBDCallback, publishMapPointCloud, h]
  · intro cfg s msgRGB msgD Tcw h
    simp [stepOp, RGBDCallback, publishMapPointCloud, h]
  · intro cfg s msgRGB msgD Tcw
    simp [stepOp, RGBDCallback]

/-- Witness for C8 (amended): with `cfg0` (visualization on) a successful track
fetches the point cloud. -/
theorem pointcloud_fetched_never_published_witness :
    cfg0.rosViz = true ∧
    Event.engineGetCurrentMapPoints ∈ (stepOp cfg0 trackedState opTrackOk).2 :=
  ⟨rfl, pointcloud_fetched_never_published.2.1 cfg0 trackedState img0 img0 default rfl⟩

/-- C9 counterexample: under the spec's parameter order
(includeLandmarks, trackedOnly, keyframeId), the periodic publisher's only
snapshot query on a tracked tick carries includeLandmarks = true and the query
handler's carries includeLandmarks = false — the opposite of the claim. -/
theorem mapData_flags_opposite_to_claim :
    (publishMapData trackedState snap0).filterMap queryArgs =
      [(true, false, ([] : List Int))] ∧
    ((getMapServer req0 snap0).2).filterMap queryArgs = [(false, false, [7])] ∧
    ¬(∀ a ∈ (publishMapData trackedState snap0).filterMap queryArgs, a.1 = false) ∧
    ¬(∀ a ∈ ((getMapServer req0 snap0).2).filterMap queryArgs, a.1 = true) := by decide

/-- C9 amended: every snapshot the periodic publisher requests carries the
argument triple (true, false, no keyframe ids), every snapshot the handler
requests carries (false, request.tracked_points, request.kf_id_for_landmarks),
and an untracked tick requests nothing. -/
theorem mapData_request_flags :
    (∀ s snap, s.isTracked = true →
       (publishMapData s snap).filterMap queryArgs = [(true, false, ([] : List Int))]) ∧
    (∀ req snap, ((getMapServer req snap).2).filterMap queryArgs =
       [(false, req.tracked_points, req.kf_id_for_landmarks)]) ∧
    (∀ s snap, s.isTracked = false → publishMapData s snap = []) := by
  refine ⟨?_, ?_, ?_⟩
  · intro s snap h
    simp [publishMapData, mapDataToMsg, h, queryArgs]
  · intro req snap
    simp [getMapServer, mapDataToMsg, queryArgs]
  · intro s snap h
    simp [publishMapData, h]

/-- Witness for C9 (amended): the tracked-tick query triple is (true, false, []). -/
theorem mapData_request_flags_witness :
    trackedState.isTracked = true ∧
    (publishMapData trackedState snap0).filterMap queryArgs =
      [(true, false, ([] : List Int))] :=
  ⟨rfl, mapData_request_flags.1 trackedState snap0 rfl⟩

/-- C10 counterexample: on a traversability tick the structured grid-map is
published exactly as the engine returned it, so its header keeps the engine's
frame id and stamp instead of the global frame id and the cell's latest
timestamp — the claim that both outputs are restamped is false. -/
theorem structGrid_not_restamped :
    (publishTraversabilityData cfg0 trackedState travMap0).filterMap structPayload =
      [travMap0.2] ∧
    travMap0.2.header.frame_id ≠ cfg0.global_frame ∧
    travMap0.2.header.stamp ≠ trackedState.latestTime := by decide

/-- C10 amended: every traversability tick publishes exactly one occupancy grid —
its origin translated by the configured robot-origin offsets and its header
restamped with the global frame id and the cell's latest timestamp — and exactly
one structured grid-map, unmodified, together on that tick. -/
theorem traversability_tick_outputs (cfg : Config) (s : NodeState)
    (m : OccupancyGrid × GridMapMsg) :
    (∃ g, (publishTraversabilityData cfg s m).filterMap gridPayload = [g] ∧
       g.originX = m.1.originX + cfg.robot_x ∧
       g.originY = m.1.originY + cfg.robot_y ∧
       g.header.frame_id = cfg.global_frame ∧
       g.header.stamp = s.latestTime ∧
       g.data = m.1.data) ∧
    (publishTraversabilityData cfg s m).filterMap structPayload = [m.2] ∧
    Event.engineGetTraversabilityData ∈ publishTraversabilityData cfg s m := by
  refine ⟨⟨{ m.1 with
      originX := m.1.originX + cfg.robot_x,
      originY := m.1.originY + cfg.robot_y,
      header := { frame_id := cfg.global_frame, stamp := s.latestTime } },
    ?_, rfl, rfl, rfl, rfl, rfl⟩, ?_, ?_⟩ <;>
    simp [publishTraversabilityData, gridPayload, structPayload]

/-! ### Time Synchronizer

The synchronizer object is `message_filters::Synchronizer` with the
approximate-time policy, instantiated with queue size 10 at
rgbd-slam-node.cpp line 20; the policy implementation is library code outside
this repository, so the model below follows the spec's contract (§4.1). -/

/-- A message buffered by the synchronizer: unique arrival index and timestamp. -/
structure SyncMsg where
  idx : Nat
  stamp : Nat
deriving DecidableEq, Repr

/-- The two input channels of the synchronizer. -/
inductive Chan
  | rgb
  | depth
deriving DecidableEq, Repr

/-- Synchronizer state: one bounded buffer per channel, plus the next arrival
index. -/
structure SyncState where
  rgbQ : List SyncMsg
  depthQ : List SyncMsg
  next : Nat
deriving DecidableEq, Repr

/-- Empty synchronizer. -/
def initSync : SyncState := { rgbQ := [], depthQ := [], next := 0 }

/-- Absolute timestamp skew. -/
def skew (a b : Nat) : Nat := max a b - min a b

/-- Append a message to a buffer, evicting the oldest message once the configured
depth is exceeded. -/
def pushBounded (bound : Nat) (q : List SyncMsg) (m : SyncMsg) : List SyncMsg :=
  if bound < (q ++ [m]).length then (q ++ [m]).tail else q ++ [m]

/-- Modelled from the spec: one arrival processed by the approximate-time policy
(library code, not in this repository).  Per §4.1 the arriving message is
matched against the buffered messages of the opposite channel; a pair within
the tolerance consumes both messages and is emitted at once, otherwise the
message is buffered, evicting the oldest once the bound is exceeded. -/
def arrive (tol bound : Nat) (myQ otherQ : List SyncMsg) (m : SyncMsg) :
    List SyncMsg × List SyncMsg × Option SyncMsg :=
  match otherQ.find? (fun d => decide (skew m.stamp d.stamp ≤ tol)) with
  | some d => (myQ, otherQ.erase d, some d)
  | none => (pushBounded bound myQ m, otherQ, none)

/-- One synchronizer step: an arrival on one channel, possibly emitting a matched
(rgb, depth) pair. -/
def syncStep (tol bound : Nat) (s : SyncState) :
    Chan × Nat → SyncState × Option (SyncMsg × SyncMsg)
  | (Chan.rgb, t) =>
      let m : SyncMsg := ⟨s.next, t⟩
      let r := arrive tol bound s.rgbQ s.depthQ m
      ({ rgbQ := r.1, depthQ := r.2.1, next := s.next + 1 },
       r.2.2.map fun d => (m, d))
  | (Chan.depth, t) =>
      let m : SyncMsg := ⟨s.next, t⟩
      let r := arrive tol bound s.depthQ s.rgbQ m
      ({ rgbQ := r.2.1, depthQ := r.1, next := s.next + 1 },
       r.2.2.map fun rm => (rm, m))

/-- Process an input sequence, accumulating the emitted pairs in order. -/
def syncRun (tol bound : Nat) (s : SyncState) :
    List (Chan × Nat) → SyncState × List (SyncMsg × SyncMsg)
  | [] => (s, [])
  | a :: rest =>
      let r := syncStep tol bound s a
      let rr := syncRun tol bound r.1 rest
      (rr.1, r.2.toList ++ rr.2)

/-- The buffer of one channel. -/
def chanQueue : Chan → SyncState → List SyncMsg
  | Chan.rgb, s => s.rgbQ
  | Chan.depth, s => s.depthQ

/-- Well-formed buffer: arrival-ordered (strictly increasing indices), all
indices already assigned, length within the configured depth. -/
def QInv (bound next : Nat) (q : List SyncMsg) : Prop :=
  q.Pairwise (fun a b => a.idx < b.idx) ∧ (∀ x ∈ q, x.idx < next) ∧ q.length ≤ bound

/-- Well-formed synchronizer state. -/
def SyncInv (bound : Nat) (s : SyncState) : Prop :=
  QInv bound s.next s.rgbQ ∧ QInv bound s.next s.depthQ

lemma syncInv_init (bound : Nat) : SyncInv bound initSync := by
  refine ⟨⟨?_, ?_, ?_⟩, ?_, ?_, ?_⟩ <;> simp [initSync]

lemma skew_comm (a b : Nat) : skew a b = skew b a := by
  simp [skew, Nat.max_comm, Nat.min_comm]

lemma pushBounded_sublist (bound : Nat) (q : List SyncMsg) (m : SyncMsg) :
    List.Sublist (pushBounded bound q m) (q ++ [m]) := by
  unfold pushBounded
  split
  · exact List.tail_sublist _
  · exact List.Sublist.refl _

lemma pushBounded_length (bound : Nat) (q : List SyncMsg) (m : SyncMsg)
    (h : q.length ≤ bound) : (pushBounded bound q m).length ≤ bound := by
  unfold pushBounded
  split <;> rename_i h1 <;> simp [List.length_tail] at * <;> omega

lemma QInv_sublist {bound next : Nat} {q q' : List SyncMsg}
    (h : QInv bound next q) (hs : List.Sublist q' q) : QInv bound next q' :=
  ⟨List.Pairwise.sublist hs h.1, fun x hx => h.2.1 x (hs.subset hx),
   le_trans hs.length_le h.2.2⟩

lemma QInv_mono_next {bound next : Nat} {q : List SyncMsg} (h : QInv bound next q) :
    QInv bound (next + 1) q :=
  ⟨h.1, fun x hx => Nat.lt_succ_of_lt (h.2.1 x hx), h.2.2⟩

lemma QInv_push {bound next : Nat} {q : List SyncMsg} (h : QInv bound next q) :
    QInv bound (next + 1) (pushBounded bound q ⟨next, t⟩) := by
  have happ : (q ++ [(⟨next, t⟩ : SyncMsg)]).Pairwise (fun a b => a.idx < b.idx) := by
    rw [List.pairwise_append]
    exact ⟨h.1, List.pairwise_singleton _ _,
      fun a ha b hb => by
        simp only [List.mem_singleton] at hb
        subst hb
        exact h.2.1 a ha⟩
  refine ⟨List.Pairwise.sublist (pushBounded_sublist bound q _) happ, ?_,
    pushBounded_length bound q _ h.2.2⟩
  intro x hx
  have hx2 := (pushBounded_sublist bound q _).subset hx
  rcases List.mem_append.mp hx2 with h1 | h1
  · exact Nat.lt_succ_of_lt (h.2.1 x h1)
  · simp only [List.mem_singleton] at h1
    subst h1
    exact Nat.lt_succ_self next

lemma pairwise_idx_nodup {q : List SyncMsg}
    (h : q.Pairwise (fun a b => a.idx < b.idx)) : (q.map SyncMsg.idx).Nodup :=
  List.Pairwise.imp (fun hlt => Nat.ne_of_lt hlt) ((List.pairwise_map).mpr h)

lemma idx_not_mem_erase {q : List SyncMsg} {d : SyncMsg}
    (h : q.Pairwise (fun a b => a.idx < b.idx)) (hd : d ∈ q) :
    d.idx ∉ (q.erase d).map SyncMsg.idx := by
  intro hmem
  obtain ⟨x, hx, hxi⟩ := List.mem_map.mp hmem
  have hxq : x ∈ q := (List.erase_sublist d q).mem hx
  have hnod : (q.map SyncMsg.idx).Nodup := pairwise_idx_nodup h
  have hxd : x = d := List.inj_on_of_nodup_map hnod hxq hd hxi
  subst hxd
  have hqnod : q.Nodup := hnod.of_map
  exact (List.Nodup.mem_erase_iff hqnod).mp hx |>.1 rfl

lemma syncRun_spec (tol bound : Nat) :
    ∀ (inputs : List (Chan × Nat)) (s : SyncState), SyncInv bound s →
      SyncInv bound (syncRun tol bound s inputs).1 ∧
      s.next ≤ (syncRun tol bound s inputs).1.next ∧
      (∀ p ∈ (syncRun tol bound s inputs).2, skew p.1.stamp p.2.stamp ≤ tol) ∧
      ((syncRun tol bound s inputs).2.map (fun p => p.1.idx) ++
          (syncRun tol bound s inputs).1.rgbQ.map SyncMsg.idx).Nodup ∧
      ((syncRun tol bound s inputs).2.map (fun p => p.2.idx) ++
          (syncRun tol bound s inputs).1.depthQ.map SyncMsg.idx).Nodup ∧
      (∀ i ∈ (syncRun tol bound s inputs).2.map (fun p => p.1.idx) ++
          (syncRun tol bound s inputs).1.rgbQ.map SyncMsg.idx,
          i ∈ s.rgbQ.map SyncMsg.idx ∨ s.next ≤ i) ∧
      (∀ i ∈ (syncRun tol bound s inputs).2.map (fun p => p.2.idx) ++
          (syncRun tol bound s inputs).1.depthQ.map SyncMsg.idx,
          i ∈ s.depthQ.map SyncMsg.idx ∨ s.next ≤ i) := by
  intro inputs
  induction inputs with
  | nil =>
      intro s hInv
      refine ⟨hInv, le_refl _, ?_, ?_, ?_, ?_, ?_⟩
      · intro p hp
        simp [syncRun] at hp
      · simpa [syncRun] using pairwise_idx_nodup hInv.1.1
      · simpa [syncRun] using pairwise_idx_nodup hInv.2.1
      · intro i hi
        simp only [syncRun, List.map_nil, List.nil_append] at hi
        exact Or.inl hi
      · intro i hi
        simp only [syncRun, List.map_nil, List.nil_append] at hi
        exact Or.inl hi
  | cons a rest ih =>
      obtain ⟨c, t⟩ := a
      intro s hInv
      cases c with
      | rgb =>
        cases hf : s.depthQ.find? (fun d => decide (skew t d.stamp ≤ tol)) with
        | none =>
            have hstep : syncStep tol bound s (Chan.rgb, t) =
                (⟨pushBounded bound s.rgbQ ⟨s.next, t⟩, s.depthQ, s.next + 1⟩, none) := by
              simp [syncStep, arrive, hf]
            have hrun : syncRun tol bound s ((Chan.rgb, t) :: rest) =
                syncRun tol bound ⟨pushBounded bound s.rgbQ ⟨s.next, t⟩, s.depthQ, s.next + 1⟩ rest := by
              simp [syncRun, hstep]
            have hInv1 : SyncInv bound
                ⟨pushBounded bound s.rgbQ ⟨s.next, t⟩, s.depthQ, s.next + 1⟩ :=
              ⟨QInv_push hInv.1, QInv_mono_next hInv.2⟩
            obtain ⟨ih1, ih2, ih3, ih4, ih5, ih6, ih7⟩ := ih _ hInv1
            have ihn : s.next + 1 ≤ (syncRun tol bound _ rest).1.next := ih2
            rw [hrun]
            refine ⟨ih1, le_trans (Nat.le_succ s.next) ihn, ih3, ih4, ih5, ?_, ?_⟩
            · intro i hi
              rcases ih6 i hi with hq | hn
              · obtain ⟨x, hx, hxi⟩ := List.mem_map.mp hq
                rcases List.mem_append.mp ((pushBounded_sublist bound s.rgbQ _).subset hx)
                  with hx1 | hx1
                · exact Or.inl (List.mem_map.mpr ⟨x, hx1, hxi⟩)
                · simp only [List.mem_singleton] at hx1
                  subst hx1
                  exact Or.inr (le_of_eq hxi)
              · exact Or.inr (le_trans (Nat.le_succ s.next) hn)
            · intro i hi
              rcases ih7 i hi with hq | hn
              · exact Or.inl hq
              · exact Or.inr (le_trans (Nat.le_succ s.next) hn)
        | some d =>
            have hd_mem : d ∈ s.depthQ := List.mem_of_find?_eq_some hf
            have hd_skew : skew t d.stamp ≤ tol := by
              have := List.find?_some hf
              simpa using this
            have hd_lt : d.idx < s.next := hInv.2.2.1 d hd_mem
            have hstep : syncStep tol bound s (Chan.rgb, t) =
                (⟨s.rgbQ, s.depthQ.erase d, s.next + 1⟩, some (⟨s.next, t⟩, d)) := by
              simp [syncStep, arrive, hf]
            have hrun : syncRun tol bound s ((Chan.rgb, t) :: rest) =
                ((syncRun tol bound ⟨s.rgbQ, s.depthQ.erase d, s.next + 1⟩ rest).1,
                 (⟨s.next, t⟩, d) ::
                   (syncRun tol bound ⟨s.rgbQ, s.depthQ.erase d, s.next + 1⟩ rest).2) := by
              simp [syncRun, hstep]
            have hInv1 : SyncInv bound ⟨s.rgbQ, s.depthQ.erase d, s.next + 1⟩ :=
              ⟨QInv_mono_next hInv.1,
               QInv_mono_next (QInv_sublist hInv.2 (List.erase_sublist d s.depthQ))⟩
            obtain ⟨ih1, ih2, ih3, ih4, ih5, ih6, ih7⟩ := ih _ hInv1
            rw [hrun]
            refine ⟨ih1, le_trans (Nat.le_succ s.next) ih2, ?_, ?_, ?_, ?_, ?_⟩
            · intro p hp
              rcases List.mem_cons.mp hp with hp0 | hp0
              · subst hp0
                simpa using hd_skew
              · exact ih3 p hp0
            · simp only [List.map_cons, List.cons_append, List.nodup_cons]
              refine ⟨?_, ih4⟩
              intro hmem
              rcases ih6 _ hmem with hq | hn
              · obtain ⟨x, hx, hxi⟩ := List.mem_map.mp hq
                have := hInv.1.2.1 x hx
                omega
              · have h2 : s.next + 1 ≤ _ := hn
                omega
            · simp only [List.map_cons, List.cons_append, List.nodup_cons]
              refine ⟨?_, ih5⟩
              intro hmem
              rcases ih7 _ hmem with hq | hn
              · exact idx_not_mem_erase hInv.2.1 hd_mem hq
              · have h2 : s.next + 1 ≤ _ := hn
                omega
            · intro i hi
              simp only [List.map_cons, List.cons_append, List.mem_cons] at hi
              rcases hi with hi | hi
              · subst hi
                exact Or.inr (le_refl _)
              · rcases ih6 i hi with hq | hn
                · exact Or.inl hq
                · exact Or.inr (le_trans (Nat.le_succ s.next) hn)
            · intro i hi
              simp only [List.map_cons, List.cons_append, List.mem_cons] at hi
              rcases hi with hi | hi
              · subst hi
                exact Or.inl (List.mem_map.mpr ⟨d, hd_mem, rfl⟩)
              · rcases ih7 i hi with hq | hn
                · exact Or.inl
                    (((List.erase_sublist d s.depthQ).map SyncMsg.idx).subset hq)
                · exact Or.inr (le_trans (Nat.le_succ s.next) hn)
      | depth =>
        cases hf : s.rgbQ.find? (fun d => decide (skew t d.stamp ≤ tol)) with
        | none =>
            have hstep : syncStep tol bound s (Chan.depth, t) =
                (⟨s.rgbQ, pushBounded bound s.depthQ ⟨s.next, t⟩, s.next + 1⟩, none) := by
              simp [syncStep, arrive, hf]
            have hrun : syncRun tol bound s ((Chan.depth, t) :: rest) =
                syncRun tol bound ⟨s.rgbQ, pushBounded bound s.depthQ ⟨s.next, t⟩, s.next + 1⟩ rest := by
              simp [syncRun, hstep]
            have hInv1 : SyncInv bound
                ⟨s.rgbQ, pushBounded bound s.depthQ ⟨s.next, t⟩, s.next + 1⟩ :=
              ⟨QInv_mono_next hInv.1, QInv_push hInv.2⟩
            obtain ⟨ih1, ih2, ih3, ih4, ih5, ih6, ih7⟩ := ih _ hInv1
            have ihn : s.next + 1 ≤ (syncRun tol bound _ rest).1.next := ih2
            rw [hrun]
            refine ⟨ih1, le_trans (Nat.le_succ s.next) ihn, ih3, ih4, ih5, ?_, ?_⟩
            · intro i hi
              rcases ih6 i hi with hq | hn
              · exact Or.inl hq
              · exact Or.inr (le_trans (Nat.le_succ s.next) hn)
            · intro i hi
              rcases ih7 i hi with hq | hn
              · obtain ⟨x, hx, hxi⟩ := List.mem_map.mp hq
                rcases List.mem_append.mp ((pushBounded_sublist bound s.depthQ _).subset hx)
                  with hx1 | hx1
                · exact Or.inl (List.mem_map.mpr ⟨x, hx1, hxi⟩)
                · simp only [List.mem_singleton] at hx1
                  subst hx1
                  exact Or.inr (le_of_eq hxi)
              · exact Or.inr (le_trans (Nat.le_succ s.next) hn)
        | some d =>
            have hd_mem : d ∈ s.rgbQ := List.mem_of_find?_eq_some hf
            have hd_skew : skew t d.stamp ≤ tol := by
              have := List.find?_some hf
              simpa using this
            have hd_lt : d.idx < s.next := hInv.1.2.1 d hd_mem
            have hstep : syncStep tol bound s (Chan.depth, t) =
                (⟨s.rgbQ.erase d, s.depthQ, s.next + 1⟩, some (d, ⟨s.next, t⟩)) := by
              simp [syncStep, arrive, hf]
            have hrun : syncRun tol bound s ((Chan.depth, t) :: rest) =
                ((syncRun tol bound ⟨s.rgbQ.erase d, s.depthQ, s.next + 1⟩ rest).1,
                 (d, ⟨s.next, t⟩) ::
                   (syncRun tol bound ⟨s.rgbQ.erase d, s.depthQ, s.next + 1⟩ rest).2) := by
              simp [syncRun, hstep]
            have hInv1 : SyncInv bound ⟨s.rgbQ.erase d, s.depthQ, s.next + 1⟩ :=
              ⟨QInv_mono_next (QInv_sublist hInv.1 (List.erase_sublist d s.rgbQ)),
               QInv_mono_next hInv.2⟩
            obtain ⟨ih1, ih2, ih3, ih4, ih5, ih6, ih7⟩ := ih _ hInv1
            rw [hrun]
            refine ⟨ih1, le_trans (Nat.le_succ s.next) ih2, ?_, ?_, ?_, ?_, ?_⟩
            · intro p hp
              rcases List.mem_cons.mp hp with hp0 | hp0
              · subst hp0
                simpa [skew_comm] using hd_skew
              · exact ih3 p hp0
            · simp only [List.map_cons, List.cons_append, List.nodup_cons]
              refine ⟨?_, ih4⟩
              intro hmem
              rcases ih6 _ hmem with hq | hn
              · exact idx_not_mem_erase hInv.1.1 hd_mem hq
              · have h2 : s.next + 1 ≤ _ := hn
                omega
            · simp only [List.map_cons, List.cons_append, List.nodup_cons]
              refine ⟨?_, ih5⟩
              intro hmem
              rcases ih7 _ hmem with hq | hn
              · obtain ⟨x, hx, hxi⟩ := List.mem_map.mp hq
                have := hInv.2.2.1 x hx
                omega
              · have h2 : s.next + 1 ≤ _ := hn
                omega
            · intro i hi
              simp only [List.map_cons, List.cons_append, List.mem_cons] at hi
              rcases hi with hi | hi
              · subst hi
                exact Or.inl (List.mem_map.mpr ⟨d, hd_mem, rfl⟩)
              · rcases ih6 i hi with hq | hn
                · exact Or.inl
                    (((List.erase_sublist d s.rgbQ).map SyncMsg.idx).subset hq)
                · exact Or.inr (le_trans (Nat.le_succ s.next) hn)
            · intro i hi
              simp only [List.map_cons, List.cons_append, List.mem_cons] at hi
              rcases hi with hi | hi
              · subst hi
                exact Or.inr (le_refl _)
              · rcases ih7 i hi with hq | hn
                · exact Or.inl hq
                · exact Or.inr (le_trans (Nat.le_succ s.next) hn)

lemma syncStep_drop_oldest (tol bound : Nat) (s : SyncState) (c : Chan) (t : Nat)
    (m : SyncMsg) (hInv : SyncInv bound s) (hm : m ∈ chanQueue c s)
    (hout : m ∉ chanQueue c (syncStep tol bound s (c, t)).1) :
    (chanQueue c s).length = bound ∧ ∀ m2 ∈ chanQueue c s, m.idx ≤ m2.idx := by
  cases c with
  | rgb =>
      cases hf : s.depthQ.find? (fun d => decide (skew t d.stamp ≤ tol)) with
      | some d =>
          exact absurd hm (by simpa [syncStep, arrive, hf, chanQueue] using hout)
      | none =>
          simp only [chanQueue, syncStep, arrive, hf] at hm hout ⊢
          by_cases hlen : bound < (s.rgbQ ++ [(⟨s.next, t⟩ : SyncMsg)]).length
          · have hb : s.rgbQ.length = bound := by
              have := hInv.1.2.2
              simp only [List.length_append, List.length_singleton] at hlen
              omega
            refine ⟨hb, ?_⟩
            rw [pushBounded, if_pos hlen] at hout
            cases hq : s.rgbQ with
            | nil => simp [hq] at hm
            | cons h0 rest =>
                have hmh : m = h0 := by
                  rcases List.mem_cons.mp (hq ▸ hm) with h | h
                  · exact h
                  · exact absurd (by simp [hq, h] : m ∈ ((s.rgbQ ++ [(⟨s.next, t⟩ : SyncMsg)]).tail))
                      hout
                subst hmh
                intro m2 hm2
                rcases List.mem_cons.mp hm2 with h | h
                · exact le_of_eq (congrArg SyncMsg.idx h.symm)
                · have hpw := hInv.1.1
                  rw [hq, List.pairwise_cons] at hpw
                  exact le_of_lt (hpw.1 m2 h)
          · exact absurd (by
              rw [pushBounded, if_neg hlen]
              exact List.mem_append_left _ hm) hout
  | depth =>
      cases hf : s.rgbQ.find? (fun d => decide (skew t d.stamp ≤ tol)) with
      | some d =>
          exact absurd hm (by simpa [syncStep, arrive, hf, chanQueue] using hout)
      | none =>
          simp only [chanQueue, syncStep, arrive, hf] at hm hout ⊢
          by_cases hlen : bound < (s.depthQ ++ [(⟨s.next, t⟩ : SyncMsg)]).length
          · have hb : s.depthQ.length = bound := by
              have := hInv.2.2.2
              simp only [List.length_append, List.length_singleton] at hlen
              omega
            refine ⟨hb, ?_⟩
            rw [pushBounded, if_pos hlen] at hout
            cases hq : s.depthQ with
            | nil => simp [hq] at hm
            | cons h0 rest =>
                have hmh : m = h0 := by
                  rcases List.mem_cons.mp (hq ▸ hm) with h | h
                  · exact h
                  · exact absurd (by simp [hq, h] : m ∈ ((s.depthQ ++ [(⟨s.next, t⟩ : SyncMsg)]).tail))
                      hout
                subst hmh
                intro m2 hm2
                rcases List.mem_cons.mp hm2 with h | h
                · exact le_of_eq (congrArg SyncMsg.idx h.symm)
                · have hpw := hInv.2.1
                  rw [hq, List.pairwise_cons] at hpw
                  exact le_of_lt (hpw.1 m2 h)
          · exact absurd (by
              rw [pushBounded, if_neg hlen]
              exact List.mem_append_left _ hm) hout

/-- C6: over every input sequence the synchronizer (modelled from the spec, §4.1)
emits at most one matched pair per arrival event, never emits a pair whose
timestamp skew exceeds the tolerance, never reuses a buffered message — so no
pair is ever emitted twice —, keeps both buffers within the configured depth,
and a message dropped without being matched is the oldest one of a full buffer. -/
theorem synchronizer_contract (tol bound : Nat) (inputs : List (Chan × Nat)) :
    (∀ p ∈ (syncRun tol bound initSync inputs).2, skew p.1.stamp p.2.stamp ≤ tol) ∧
    ((syncRun tol bound initSync inputs).2.map (fun p => p.1.idx)).Nodup ∧
    ((syncRun tol bound initSync inputs).2.map (fun p => p.2.idx)).Nodup ∧
    (∀ (s : SyncState) (a : Chan × Nat), (syncStep tol bound s a).2.toList.length ≤ 1) ∧
    (syncRun tol bound initSync inputs).1.rgbQ.length ≤ bound ∧
    (syncRun tol bound initSync inputs).1.depthQ.length ≤ bound ∧
    (∀ (s : SyncState) (c : Chan) (t : Nat) (m : SyncMsg),
       SyncInv bound s → m ∈ chanQueue c s →
       m ∉ chanQueue c (syncStep tol bound s (c, t)).1 →
       (chanQueue c s).length = bound ∧ ∀ m2 ∈ chanQueue c s, m.idx ≤ m2.idx) := by
  obtain ⟨h1, h2, h3, h4, h5, h6, h7⟩ :=
    syncRun_spec tol bound inputs initSync (syncInv_init bound)
  refine ⟨h3, h4.of_append_left, h5.of_append_left, ?_, h1.1.2.2, h1.2.2.2, ?_⟩
  · intro s a
    cases h : (syncStep tol bound s a).2 <;> simp [h]
  · exact fun s c t m hI hm hout => syncStep_drop_oldest tol bound s c t m hI hm hout

/-- Concrete synchronizer input: the spec §8 scenario scaled by 100
(rgb at 0 and 10, depth at 3 and 13, tolerance 5). -/
def demoInputs : List (Chan × Nat) :=
  [(Chan.rgb, 0), (Chan.depth, 3), (Chan.rgb, 10), (Chan.depth, 13)]

/-- Witness for C6: on the spec's scenario the model emits exactly the pairs
(0, 3) and (10, 13) — never (0, 13) — and the theorem bounds the skew of the
first emitted pair. -/
theorem synchronizer_contract_witness :
    ((syncRun 5 10 initSync demoInputs).2.map (fun p => (p.1.stamp, p.2.stamp)) =
      [(0, 3), (10, 13)]) ∧
    ((⟨0, 0⟩, ⟨1, 3⟩) : SyncMsg × SyncMsg) ∈ (syncRun 5 10 initSync demoInputs).2 ∧
    skew (0 : Nat) 3 ≤ 5 :=
  ⟨by decide, by decide,
   (synchronizer_contract 5 10 demoInputs).1 (⟨0, 0⟩, ⟨1, 3⟩) (by decide)⟩

end ORB_SLAM3_Wrapper
